import Mathlib

/-!
Shallow embedding of the `cache` crate (`src/lib.rs`): an in-process,
namespaced, TTL key-value cache.  Serialization (`serde_json`) is modelled
abstractly by functions `K → Option String` (`none` = serialization failure);
a Rust panic (`unwrap` of a failed result) is modelled as `Except.error`.
Clock time is passed explicitly as the integer unix timestamp `now`.
-/

/-- `CacheEntry` from `src/lib.rs`: the serialized payload and the absolute
expiry unix timestamp. -/
structure CacheEntry where
  value : String
  expiring : Int
deriving DecidableEq

/-- The process-wide map from encoded key to entry (the `HashMap` behind the
mutex), modelled as a partial function. -/
def Store : Type := String → Option CacheEntry

/-- `Cache` from `src/lib.rs`: a handle holding only its namespace string
(field `0` in the Rust tuple struct). -/
structure Cache where
  ns : String
deriving DecidableEq

/-- `Cache::new`. -/
def Cache.new (s : String) : Cache := ⟨s⟩

/-- Smallest unix timestamp representable by `time::OffsetDateTime`
(year -9999). -/
def minTimestamp : Int := -377705116800

/-- Largest unix timestamp representable by `time::OffsetDateTime`
(year 9999). -/
def maxTimestamp : Int := 253402300799

/-- Model of `OffsetDateTime::checked_add(ttl.seconds())` followed by
`unix_timestamp()`: the sum when it stays in the representable range,
`none` (→ panic at the `unwrap`) otherwise. -/
def checkedAddSeconds (now ttl : Int) : Option Int :=
  if minTimestamp ≤ now + ttl ∧ now + ttl ≤ maxTimestamp then some (now + ttl)
  else none

/-- `Cache::get_key`: `format!("{}:{}", self.0, serde_json::to_string(key).unwrap())`.
`serK` models `serde_json::to_string` for the key type; `none` means the
`unwrap` panics, which the callers surface as `Except.error`. -/
def Cache.get_key {K : Type} (c : Cache) (serK : K → Option String) (key : K) :
    Option String :=
  match serK key with
  | some s => some (c.ns ++ ":" ++ s)
  | none => none

/-- `Cache::get`: look up the encoded key; on a hit, return the deserialized
value only when `entry.expiring > now`, else `None`.  The `Store` is returned
alongside the result to make the absence of mutation explicit (the Rust body
holds the locked map for the whole call and performs no write). -/
def Cache.get {K V : Type} (c : Cache) (serK : K → Option String)
    (deserV : String → Option V) (now : Int) (store : Store) (key : K) :
    Except String (Option V × Store) :=
  match c.get_key serK key with
  | none => Except.error "panic: key serialization failed"
  | some ck =>
    match store ck with
    | some entry =>
      if entry.expiring > now then
        match deserV entry.value with
        | some v => Except.ok (some v, store)
        | none => Except.error "panic: deserialization failed"
      else Except.ok (none, store)
    | none => Except.ok (none, store)

/-- `Cache::insert`: compute the encoded key, then
`expiring = now_utc().checked_add(ttl.seconds()).unwrap().unix_timestamp()`,
then serialize the value, then insert-or-replace the entry
(`HashMap::insert`).  Evaluation order of the three fallible steps follows
the Rust source. -/
def Cache.insert {K V : Type} (c : Cache) (serK : K → Option String)
    (serV : V → Option String) (now : Int) (store : Store) (key : K)
    (value : V) (ttl : Int) : Except String Store :=
  match c.get_key serK key with
  | none => Except.error "panic: key serialization failed"
  | some ck =>
    match checkedAddSeconds now ttl with
    | none => Except.error "panic: timestamp overflow"
    | some expiring =>
      match serV value with
      | none => Except.error "panic: value serialization failed"
      | some sv =>
        Except.ok (fun k => if k = ck then some ⟨sv, expiring⟩ else store k)

/-- A successful `checkedAddSeconds` yields exactly `now + ttl`. -/
theorem checkedAddSeconds_eq_add {now ttl e : Int}
    (h : checkedAddSeconds now ttl = some e) : e = now + ttl := by
  unfold checkedAddSeconds at h
  split at h
  · exact (Option.some_inj.mp h).symm
  · exact absurd h (by simp)

/-- A successful `Cache.insert` returns exactly the pointwise update of the
store at the encoded key with the serialized value and `expiring = now + ttl`. -/
theorem insert_ok_characterization {K V : Type} (c : Cache)
    (serK : K → Option String) (serV : V → Option String) (now : Int)
    (store : Store) (key : K) (v : V) (ttl : Int) (st' : Store)
    (hins : c.insert serK serV now store key v ttl = Except.ok st') :
    ∃ ck sv, c.get_key serK key = some ck ∧ serV v = some sv ∧
      checkedAddSeconds now ttl = some (now + ttl) ∧
      st' = fun k => if k = ck then some ⟨sv, now + ttl⟩ else store k := by
  unfold Cache.insert at hins
  cases hk : c.get_key serK key with
  | none => rw [hk] at hins; exact absurd hins (by simp)
  | some ck =>
    rw [hk] at hins
    cases ha : checkedAddSeconds now ttl with
    | none => rw [ha] at hins; exact absurd hins (by simp)
    | some e =>
      rw [ha] at hins
      cases hv : serV v with
      | none => rw [hv] at hins; exact absurd hins (by simp)
      | some sv =>
        rw [hv] at hins
        have he : e = now + ttl := checkedAddSeconds_eq_add ha
        subst he
        refine ⟨ck, sv, rfl, rfl, rfl, ?_⟩
        injection hins with h
        exact h.symm

/-- The result `Store` of a successful `Cache.get` is the input store: the
body returns the locked map untouched on every path. -/
theorem get_ok_store_eq {K V : Type} (c : Cache) (serK : K → Option String)
    (deserV : String → Option V) (now : Int) (store : Store) (key : K)
    (p : Option V × Store)
    (h : c.get serK deserV now store key = Except.ok p) : p.2 = store := by
  unfold Cache.get at h
  repeat' split at h
  all_goals first
    | exact Except.noConfusion h
    | (injection h with h2; exact (congrArg Prod.snd h2).symm)

/-- A hit on an unexpired entry whose payload deserializes returns the value. -/
theorem get_hit {K V : Type} (c : Cache) (serK : K → Option String)
    (deserV : String → Option V) (now : Int) (store : Store) (key : K)
    (ck : String) (e : CacheEntry) (v : V)
    (hk : c.get_key serK key = some ck) (he : store ck = some e)
    (hact : now < e.expiring) (hd : deserV e.value = some v) :
    c.get serK deserV now store key = Except.ok (some v, store) := by
  unfold Cache.get
  rw [hk]
  simp [he, hact, hd]

/-- A hit on an entry with `expiring ≤ now` returns `none`, whatever the
deserializer would do. -/
theorem get_expired {K V : Type} (c : Cache) (serK : K → Option String)
    (deserV : String → Option V) (now : Int) (store : Store) (key : K)
    (ck : String) (e : CacheEntry)
    (hk : c.get_key serK key = some ck) (he : store ck = some e)
    (hexp : e.expiring ≤ now) :
    c.get serK deserV now store key = Except.ok (none, store) := by
  unfold Cache.get
  rw [hk]
  have hlt : ¬ now < e.expiring := not_lt.mpr hexp
  simp [he, hlt]

/-- A miss (no entry at the encoded key) returns `none`. -/
theorem get_miss {K V : Type} (c : Cache) (serK : K → Option String)
    (deserV : String → Option V) (now : Int) (store : Store) (key : K)
    (ck : String)
    (hk : c.get_key serK key = some ck) (he : store ck = none) :
    c.get serK deserV now store key = Except.ok (none, store) := by
  unfold Cache.get
  rw [hk]
  simp [he]

/-- String append is right-cancellative (used for namespace separation). -/
theorem string_append_right_cancel {a b s : String} (h : a ++ s = b ++ s) :
    a = b := by
  have hd := congrArg String.data h
  simp only [String.data_append] at hd
  exact congrArg String.mk (List.append_cancel_right hd)

/-- Identity serializer over strings, used in concrete witnesses. -/
def serStr : String → Option String := fun s => some s

/-- Identity deserializer over strings, used in concrete witnesses. -/
def deserStr : String → Option String := fun s => some s

/-- Always-failing serializer: models an unserializable key or value. -/
def serFailing : String → Option String := fun _ => none

/-- Always-failing deserializer: models a stored payload that does not match
the requested type. -/
def deserFailing : String → Option String := fun _ => none

/-- The empty store. -/
def emptyStore : Store := fun _ => none

/-- Store after `Cache::new("p").insert("k", "v", 10)` at time 100. -/
def storeAfterInsert : Store :=
  fun k => if k = "p:k" then some ⟨"v", 110⟩ else emptyStore k

/-- Store after `Cache::new("p").insert("k", "v", 0)` at time 100. -/
def storeAfterZeroTtl : Store :=
  fun k => if k = "p:k" then some ⟨"v", 100⟩ else emptyStore k

/-- A store holding an entry under `"p:a"` that is expired at time 100. -/
def storeWithExpired : Store :=
  fun k => if k = "p:a" then some ⟨"v", 50⟩ else none

/-- C1: for every serializable key, serializable value and ttl > 0, a
successful `insert(key, value, ttl)` followed immediately (same `now`) by
`get(key)` at the same deserialization target on a handle with the same
namespace returns `some value`, provided the value's serialization
round-trips. -/
theorem insert_then_get_roundtrip {K V : Type} (c : Cache)
    (serK : K → Option String) (serV : V → Option String)
    (deserV : String → Option V) (now ttl : Int) (store st' : Store)
    (key : K) (v : V) (sv : String)
    (httl : 0 < ttl) (hsv : serV v = some sv) (hround : deserV sv = some v)
    (hins : c.insert serK serV now store key v ttl = Except.ok st') :
    c.get serK deserV now st' key = Except.ok (some v, st') := by
  obtain ⟨ck, sv', hk, hsv', hadd, hst⟩ :=
    insert_ok_characterization c serK serV now store key v ttl st' hins
  rw [hsv] at hsv'
  have hsveq : sv' = sv := (Option.some_inj.mp hsv').symm
  rw [hsveq] at hst
  refine get_hit c serK deserV now st' key ck ⟨sv, now + ttl⟩ v hk ?_ ?_ ?_
  · rw [hst]; simp
  · show now < now + ttl
    omega
  · exact hround

/-- C1 witness: `insert("k","v",10)` then `get("k")` at time 100 yields
`some "v"`. -/
theorem insert_then_get_roundtrip_witness :
    (Cache.new "p").get serStr deserStr 100 storeAfterInsert "k" =
      Except.ok (some "v", storeAfterInsert) :=
  insert_then_get_roundtrip (Cache.new "p") serStr serStr deserStr 100 10
    emptyStore storeAfterInsert "k" "v" "v" (by decide) rfl rfl rfl

/-- C2: for every serializable key and value and every ttl ≤ 0 (including 0),
a successful `insert(key, value, ttl)` followed by `get(key)` on the same
namespace returns `none`: the computed `expiring = now + ttl` is not strictly
greater than `now`, so the entry is treated as absent (for any requested
deserialization target). -/
theorem insert_nonpos_ttl_get_none {K V W : Type} (c : Cache)
    (serK : K → Option String) (serV : V → Option String)
    (deserW : String → Option W) (now ttl : Int) (store st' : Store)
    (key : K) (v : V)
    (httl : ttl ≤ 0)
    (hins : c.insert serK serV now store key v ttl = Except.ok st') :
    c.get serK deserW now st' key = Except.ok (none, st') := by
  obtain ⟨ck, sv, hk, hsv, hadd, hst⟩ :=
    insert_ok_characterization c serK serV now store key v ttl st' hins
  refine get_expired c serK deserW now st' key ck ⟨sv, now + ttl⟩ hk ?_ ?_
  · rw [hst]; simp
  · show now + ttl ≤ now
    omega

/-- C2 witness: `insert("k","v",0)` then `get("k")` at time 100 yields
`none`. -/
theorem insert_nonpos_ttl_get_none_witness :
    (Cache.new "p").get serStr deserStr 100 storeAfterZeroTtl "k" =
      Except.ok (none, storeAfterZeroTtl) :=
  insert_nonpos_ttl_get_none (Cache.new "p") serStr serStr deserStr 100 0
    emptyStore storeAfterZeroTtl "k" "v" (by decide) rfl

/-- C3: `get` performs exactly this case analysis on the store: no entry at
the encoded key → `none`; entry with `expiring ≤ now` → `none`; entry with
`expiring > now` → `some` of the deserialized stored value. -/
theorem get_case_analysis {K V : Type} (c : Cache) (serK : K → Option String)
    (deserV : String → Option V) (now : Int) (store : Store) (key : K)
    (ck : String) (hk : c.get_key serK key = some ck) :
    (store ck = none → c.get serK deserV now store key = Except.ok (none, store)) ∧
    (∀ e, store ck = some e → e.expiring ≤ now →
      c.get serK deserV now store key = Except.ok (none, store)) ∧
    (∀ e v, store ck = some e → now < e.expiring → deserV e.value = some v →
      c.get serK deserV now store key = Except.ok (some v, store)) := by
  refine ⟨?_, ?_, ?_⟩
  · intro he
    exact get_miss c serK deserV now store key ck hk he
  · intro e he hexp
    exact get_expired c serK deserV now store key ck e hk he hexp
  · intro e v he hact hd
    exact get_hit c serK deserV now store key ck e v hk he hact hd

/-- C3 witness: the expired-entry case at concrete inputs (entry under
`"p:a"` expiring at 50, queried at time 100). -/
theorem get_case_analysis_witness :
    (Cache.new "p").get serStr deserStr 100 storeWithExpired "a" =
      Except.ok (none, storeWithExpired) :=
  (get_case_analysis (Cache.new "p") serStr deserStr 100 storeWithExpired "a"
    "p:a" rfl).2.1 ⟨"v", 50⟩ rfl (by decide)

/-- C4: `get` never mutates the store: whatever the store, key and current
time, the mapping returned by a completing `get` agrees with the input
mapping at every encoded key — in particular an entry found expired is not
removed. -/
theorem get_never_mutates {K V : Type} (c : Cache) (serK : K → Option String)
    (deserV : String → Option V) (now : Int) (store : Store) (key : K)
    (r : Option V) (st' : Store) (k : String)
    (h : c.get serK deserV now store key = Except.ok (r, st')) :
    st' k = store k := by
  have h2 := get_ok_store_eq c serK deserV now store key (r, st') h
  exact congrFun h2 k

/-- C4 witness: after a `get` that observed the expired entry, the store
still holds that entry at its encoded key. -/
theorem get_never_mutates_witness :
    storeWithExpired "p:a" = storeWithExpired "p:a" :=
  get_never_mutates (Cache.new "p") serStr deserStr 100 storeWithExpired "a"
    none storeWithExpired "p:a" rfl

/-- A hit on an unexpired entry whose payload fails to deserialize aborts. -/
theorem get_deser_panic {K V : Type} (c : Cache) (serK : K → Option String)
    (deserV : String → Option V) (now : Int) (store : Store) (key : K)
    (ck : String) (e : CacheEntry)
    (hk : c.get_key serK key = some ck) (he : store ck = some e)
    (hact : now < e.expiring) (hd : deserV e.value = none) :
    c.get serK deserV now store key =
      Except.error "panic: deserialization failed" := by
  unfold Cache.get
  rw [hk]
  simp [he, hact, hd]

/-- Store holding a stale previous entry under `"p:k"`. -/
def storeOld : Store := fun k => if k = "p:k" then some ⟨"old", 150⟩ else none

/-- `storeOld` after `Cache::new("p").insert("k", "w", 100)` at time 200. -/
def storeOverwritten : Store :=
  fun k => if k = "p:k" then some ⟨"w", 300⟩ else storeOld k

/-- C5: `insert` is an unconditional insert-or-replace: whatever the prior
store held at the encoded key (absent, active or expired entry), after a
successful `insert(key, value, ttl)` the entry at the encoded key holds the
newly serialized value and `expiring = now + ttl`. -/
theorem insert_overwrites {K V : Type} (c : Cache) (serK : K → Option String)
    (serV : V → Option String) (now ttl : Int) (store st' : Store) (key : K)
    (v : V) (ck sv : String)
    (hk : c.get_key serK key = some ck) (hsv : serV v = some sv)
    (hins : c.insert serK serV now store key v ttl = Except.ok st') :
    st' ck = some ⟨sv, now + ttl⟩ := by
  obtain ⟨ck', sv', hk', hsv', hadd, hst⟩ :=
    insert_ok_characterization c serK serV now store key v ttl st' hins
  rw [hk] at hk'
  rw [hsv] at hsv'
  have hck : ck' = ck := (Option.some_inj.mp hk').symm
  have hsveq : sv' = sv := (Option.some_inj.mp hsv').symm
  rw [hck, hsveq] at hst
  rw [hst]
  simp

/-- C5 witness: overwriting the stale entry `⟨"old", 150⟩` under `"p:k"` with
`insert("k","w",100)` at time 200 leaves `⟨"w", 300⟩` there. -/
theorem insert_overwrites_witness :
    storeOverwritten "p:k" = some ⟨"w", 300⟩ :=
  insert_overwrites (Cache.new "p") serStr serStr 200 100 storeOld
    storeOverwritten "k" "w" "p:k" "w" rfl rfl rfl

/-- C6: no operation removes an entry: a successful `insert` keeps every
already-populated encoded key populated and changes nothing outside its own
encoded key, and a completing `get` leaves the whole mapping unchanged. -/
theorem store_never_shrinks {K V : Type} (c : Cache) (serK : K → Option String)
    (serV : V → Option String) (deserV : String → Option V) (now : Int)
    (store : Store) (key : K) (v : V) (ttl : Int) (ck : String) (st' : Store)
    (p : Option V × Store) (k : String)
    (hk : c.get_key serK key = some ck)
    (hins : c.insert serK serV now store key v ttl = Except.ok st')
    (hget : c.get serK deserV now store key = Except.ok p) :
    ((store k).isSome → (st' k).isSome) ∧ (k ≠ ck → st' k = store k) ∧
      p.2 k = store k := by
  obtain ⟨ck', sv', hk', hsv', hadd, hst⟩ :=
    insert_ok_characterization c serK serV now store key v ttl st' hins
  rw [hk] at hk'
  have hck : ck' = ck := (Option.some_inj.mp hk').symm
  rw [hck] at hst
  refine ⟨?_, ?_, ?_⟩
  · intro hs
    rw [hst]
    by_cases hkk : k = ck
    · simp [hkk]
    · simpa [hkk] using hs
  · intro hkk
    rw [hst]
    simp [hkk]
  · exact congrFun (get_ok_store_eq c serK deserV now store key p hget) k

/-- C6 witness: the entry under an unrelated encoded key `"q"` is untouched
by the overwriting insert. -/
theorem store_never_shrinks_witness :
    storeOverwritten "q" = storeOld "q" :=
  (store_never_shrinks (Cache.new "p") serStr serStr deserStr 200 storeOld
    "k" "w" 100 "p:k" storeOverwritten (none, storeOld) "q"
    rfl rfl rfl).2.1 (by decide)

/-- C7: namespace isolation: for handles with distinct namespace strings and
a logically identical key (one shared serialization `sk`), the two encoded
keys never coincide, and an insert through the first handle leaves the value
observed by a `get` through the second handle unchanged. -/
theorem namespace_isolation {K1 K2 V W : Type} (c1 c2 : Cache)
    (serK1 : K1 → Option String) (serK2 : K2 → Option String)
    (serV : V → Option String) (deserW : String → Option W)
    (now1 now2 ttl : Int) (store st' : Store) (key1 : K1) (key2 : K2)
    (v : V) (sk : String)
    (hns : c1.ns ≠ c2.ns)
    (h1 : serK1 key1 = some sk) (h2 : serK2 key2 = some sk)
    (hins : c1.insert serK1 serV now1 store key1 v ttl = Except.ok st') :
    c1.ns ++ ":" ++ sk ≠ c2.ns ++ ":" ++ sk ∧
    Except.map Prod.fst (c2.get serK2 deserW now2 st' key2) =
      Except.map Prod.fst (c2.get serK2 deserW now2 store key2) := by
  have hne : c1.ns ++ ":" ++ sk ≠ c2.ns ++ ":" ++ sk := by
    intro heq
    exact hns (string_append_right_cancel (string_append_right_cancel heq))
  refine ⟨hne, ?_⟩
  obtain ⟨ck', sv', hk', hsv', hadd, hst⟩ :=
    insert_ok_characterization c1 serK1 serV now1 store key1 v ttl st' hins
  have hck : ck' = c1.ns ++ ":" ++ sk := by
    unfold Cache.get_key at hk'
    rw [h1] at hk'
    exact (Option.some_inj.mp hk').symm
  have hst2 : st' (c2.ns ++ ":" ++ sk) = store (c2.ns ++ ":" ++ sk) := by
    rw [hst, hck]
    have hne2 : ¬ (c2.ns ++ ":" ++ sk = c1.ns ++ ":" ++ sk) :=
      fun heq => hne heq.symm
    simp [hne2]
  have hk2 : c2.get_key serK2 key2 = some (c2.ns ++ ":" ++ sk) := by
    unfold Cache.get_key
    rw [h2]
  cases hs : store (c2.ns ++ ":" ++ sk) with
  | none =>
    rw [get_miss c2 serK2 deserW now2 st' key2 _ hk2 (hst2.trans hs),
      get_miss c2 serK2 deserW now2 store key2 _ hk2 hs]
    simp [Except.map]
  | some e =>
    rcases lt_or_le now2 e.expiring with hact | hexp
    · cases hd : deserW e.value with
      | none =>
        rw [get_deser_panic c2 serK2 deserW now2 st' key2 _ e hk2
            (hst2.trans hs) hact hd,
          get_deser_panic c2 serK2 deserW now2 store key2 _ e hk2 hs hact hd]
      | some w =>
        rw [get_hit c2 serK2 deserW now2 st' key2 _ e w hk2
            (hst2.trans hs) hact hd,
          get_hit c2 serK2 deserW now2 store key2 _ e w hk2 hs hact hd]
        simp [Except.map]
    · rw [get_expired c2 serK2 deserW now2 st' key2 _ e hk2
          (hst2.trans hs) hexp,
        get_expired c2 serK2 deserW now2 store key2 _ e hk2 hs hexp]
      simp [Except.map]

/-- C7 witness: after `Cache::new("p")` inserts under serialized key `"k"`,
a `get` through `Cache::new("q")` under the same serialized key observes the
same (absent) value as before the insert. -/
theorem namespace_isolation_witness :
    Except.map Prod.fst ((Cache.new "q").get serStr deserStr 100
        storeAfterInsert "k") =
      Except.map Prod.fst ((Cache.new "q").get serStr deserStr 100
        emptyStore "k") :=
  (namespace_isolation (Cache.new "p") (Cache.new "q") serStr serStr serStr
    deserStr 100 100 10 emptyStore storeAfterInsert "k" "k" "v" "k"
    (by decide) rfl rfl rfl).2

/-- C8: key encoding: for every namespace and serializable logical key the
encoded key is `"<namespace>:<serialized-key>"`, the same pair always encodes
to the same string, and two logical keys with identical serializations
collide (encode identically) within the same namespace. -/
theorem key_encoding_scheme {K1 K2 : Type} (c : Cache)
    (serK1 : K1 → Option String) (serK2 : K2 → Option String)
    (key1 : K1) (key2 : K2) (s : String)
    (h1 : serK1 key1 = some s) :
    c.get_key serK1 key1 = some (c.ns ++ ":" ++ s) ∧
    (serK2 key2 = some s → c.get_key serK2 key2 = c.get_key serK1 key1) := by
  constructor
  · unfold Cache.get_key
    rw [h1]
  · intro h2
    unfold Cache.get_key
    rw [h1, h2]

/-- C8 witness: `Cache::new("p")` encodes serialized key `"k"` as `"p:k"`. -/
theorem key_encoding_scheme_witness :
    (Cache.new "p").get_key serStr "k" = some ("p" ++ ":" ++ "k") :=
  (key_encoding_scheme (Cache.new "p") serStr serStr "k" "k" "k" rfl).1

/-- C9: serialization failure of the key or value, deserialization failure
on an unexpired entry, and timestamp overflow in `insert` each abort the
calling operation (modelled `Except.error`), never a recoverable result. -/
theorem failures_abort {K V : Type} (c : Cache) (serK : K → Option String)
    (serV : V → Option String) (deserV : String → Option V) (now ttl : Int)
    (store : Store) (key : K) (v : V) (ck : String) (e : CacheEntry)
    (x : Int) :
    (serK key = none →
      c.get serK deserV now store key =
        Except.error "panic: key serialization failed" ∧
      c.insert serK serV now store key v ttl =
        Except.error "panic: key serialization failed") ∧
    (c.get_key serK key = some ck → store ck = some e → now < e.expiring →
      deserV e.value = none →
      c.get serK deserV now store key =
        Except.error "panic: deserialization failed") ∧
    (c.get_key serK key = some ck → checkedAddSeconds now ttl = none →
      c.insert serK serV now store key v ttl =
        Except.error "panic: timestamp overflow") ∧
    (c.get_key serK key = some ck → checkedAddSeconds now ttl = some x →
      serV v = none →
      c.insert serK serV now store key v ttl =
        Except.error "panic: value serialization failed") := by
  refine ⟨?_, ?_, ?_, ?_⟩
  · intro hs
    have hk : c.get_key serK key = none := by
      unfold Cache.get_key
      rw [hs]
    constructor
    · unfold Cache.get
      rw [hk]
    · unfold Cache.insert
      rw [hk]
  · intro hk he hact hd
    exact get_deser_panic c serK deserV now store key ck e hk he hact hd
  · intro hk ha
    unfold Cache.insert
    rw [hk, ha]
  · intro hk ha hv
    unfold Cache.insert
    rw [hk, ha, hv]

/-- C9 witness: an unserializable key makes both `get` and `insert` abort. -/
theorem failures_abort_witness :
    (Cache.new "p").get serFailing deserStr 0 emptyStore "k" =
      Except.error "panic: key serialization failed" ∧
    (Cache.new "p").insert serFailing serStr 0 emptyStore "k" "v" 1 =
      Except.error "panic: key serialization failed" :=
  (failures_abort (Cache.new "p") serFailing serStr deserStr 0 1 emptyStore
    "k" "v" "" ⟨"", 0⟩ 0).1 rfl

/-- C10: `get` short-circuits on expiry before deserializing: for any entry
with `expiring ≤ now`, `get` returns `none` for every deserializer, so a
type mismatch on an expired entry never aborts the call. -/
theorem expired_entry_never_deserialized {K V : Type} (c : Cache)
    (serK : K → Option String) (deserV : String → Option V) (now : Int)
    (store : Store) (key : K) (ck : String) (e : CacheEntry)
    (hk : c.get_key serK key = some ck) (he : store ck = some e)
    (hexp : e.expiring ≤ now) :
    c.get serK deserV now store key = Except.ok (none, store) :=
  get_expired c serK deserV now store key ck e hk he hexp

/-- C10 witness: the expired entry `⟨"v", 50⟩` under `"p:a"` is returned as
`none` at time 100 even under the always-failing deserializer, which would
abort the call were the entry unexpired. -/
theorem expired_entry_never_deserialized_witness :
    (Cache.new "p").get serStr deserFailing 100 storeWithExpired "a" =
      Except.ok (none, storeWithExpired) :=
  expired_entry_never_deserialized (Cache.new "p") serStr deserFailing 100
    storeWithExpired "a" "p:a" ⟨"v", 50⟩ rfl rfl (by decide)
